import Mathlib

/-!
Shallow embedding of the overlay positioning engine in
src/lib/core/overlay/position/better-connected-position-strategy.ts
(the second, final iteration of BetterConnectedPositionStrategy, plus the
clipping predicates of the first iteration). Pixel coordinates are modelled
as rationals; JS truthiness on numbers is modelled explicitly.
-/

namespace Material2

/-- Horizontal alignment label: the originX / overlayX values start, center, end. -/
inductive HorizAlign where
  | hStart
  | hCenter
  | hEnd
deriving DecidableEq, Repr

/-- Vertical alignment label: the originY / overlayY values top, center, bottom. -/
inductive VertAlign where
  | vTop
  | vCenter
  | vBottom
deriving DecidableEq, Repr

/-- A simple (x, y) coordinate, as in the Point interface. -/
structure Point where
  x : ℚ
  y : ℚ
deriving DecidableEq, Repr

/-- Axis-aligned box in viewport space, as in ClientRect: top, left, right,
bottom, width, height. -/
structure Rect where
  top : ℚ
  left : ℚ
  right : ℚ
  bottom : ℚ
  width : ℚ
  height : ℚ
deriving DecidableEq, Repr

/-- A connected position as specified by the user (ConnectedPosition interface).
The optional weight / offsetX / offsetY fields are Option values. -/
structure ConnectedPosition where
  originX : HorizAlign
  originY : VertAlign
  overlayX : HorizAlign
  overlayY : VertAlign
  weight : Option ℚ
  offsetX : Option ℚ
  offsetY : Option ℚ
deriving DecidableEq, Repr

/-- Record of measurements for how an overlay at a given position fits into the
viewport (OverlayFit interface). -/
structure OverlayFit where
  isCompletelyWithinViewport : Bool
  fitsInViewportVertically : Bool
  fitsInViewportHorizontally : Bool
  visibleArea : ℚ
deriving DecidableEq, Repr

/-- Position and size of the overlay sizing wrapper (BoundingBoxRect interface).
In _calculateBoundingBoxRect only one of top / bottom and one of left / right is
assigned; the unassigned one is undefined in JS, modelled as none. -/
structure BoundingBoxRect where
  top : Option ℚ
  left : Option ℚ
  bottom : Option ℚ
  right : Option ℚ
  width : ℚ
  height : ℚ
deriving DecidableEq, Repr

/-- Record of measures for a position that fits with flexible dimensions
(FlexibleFit interface). -/
structure FlexibleFit where
  position : ConnectedPosition
  origin : Point
  overlayRect : Rect
  boundingBoxRect : BoundingBoxRect
deriving DecidableEq, Repr

/-- Record of the measurements for the best fallback position
(FallbackPosition interface). -/
structure FallbackPosition where
  pos : ConnectedPosition
  originPoint : Point
  overlayPoint : Point
  overlayFit : OverlayFit
  overlayRect : Rect
deriving DecidableEq, Repr

/-- The strategy configuration and mutable flags read during one apply() pass:
direction, the with* builder settings, the initial-render and last bounding box
state, and the min sizes read from the state of the attached overlay
(getState().minWidth/minHeight coerced with JS || 0). -/
structure StrategyConfig where
  isRtl : Bool
  hasFlexibleWidth : Bool
  hasFlexibleHeight : Bool
  canPush : Bool
  growAfterOpen : Bool
  isInitialRender : Bool
  lastBoundingBoxWidth : ℚ
  lastBoundingBoxHeight : ℚ
  viewportMargin : ℚ
  minWidth : ℚ
  minHeight : ℚ
deriving DecidableEq, Repr

/-- Embeds _getStartX: the horizontal start dimension, right in RTL else left. -/
def getStartX (isRtl : Bool) (rect : Rect) : ℚ :=
  if isRtl then rect.right else rect.left

/-- Embeds _getEndX: the horizontal end dimension, left in RTL else right. -/
def getEndX (isRtl : Bool) (rect : Rect) : ℚ :=
  if isRtl then rect.left else rect.right

/-- Embeds _getOriginPoint (second iteration, lines 1830-1849): the (x, y)
connection point on the origin. Note the center case uses originStartX, which
is the right edge under RTL. -/
def getOriginPoint (isRtl : Bool) (originRect : Rect) (pos : ConnectedPosition) : Point :=
  let originStartX := getStartX isRtl originRect
  let originEndX := getEndX isRtl originRect
  let x : ℚ :=
    match pos.originX with
    | .hCenter => originStartX + originRect.width / 2
    | .hStart => originStartX
    | .hEnd => originEndX
  let y : ℚ :=
    match pos.originY with
    | .vCenter => originRect.top + originRect.height / 2
    | .vTop => originRect.top
    | .vBottom => originRect.bottom
  ⟨x, y⟩

/-- Embeds _getOverlayPoint (second iteration, lines 1856-1883): the top-left
corner of the overlay for a given origin connection point. This iteration does
not add offsetX/offsetY here (they are applied later as CSS margins). -/
def getOverlayPoint (isRtl : Bool) (originPoint : Point) (overlayRect : Rect)
    (pos : ConnectedPosition) : Point :=
  let overlayStartX : ℚ :=
    match pos.overlayX with
    | .hCenter => -overlayRect.width / 2
    | .hStart => if isRtl then -overlayRect.width else 0
    | .hEnd => if isRtl then 0 else -overlayRect.width
  let overlayStartY : ℚ :=
    match pos.overlayY with
    | .vCenter => -overlayRect.height / 2
    | .vTop => 0
    | .vBottom => -overlayRect.height
  ⟨originPoint.x + overlayStartX, originPoint.y + overlayStartY⟩

/-- Embeds _subtractOverflows: subtract each positive overflow from the length
(a reduce over the overflow list). -/
def subtractOverflows (length : ℚ) (overflows : List ℚ) : ℚ :=
  overflows.foldl (fun currentValue currentOverflow => currentValue - max currentOverflow 0) length

/-- Embeds _getOverlayFit (second iteration, lines 1886-1906). The overflows
are measured against 0 and viewport.width/height, not against the
left/top/right/bottom fields of the viewport rect. -/
def getOverlayFit (point : Point) (overlay viewport : Rect) : OverlayFit :=
  let leftOverflow := 0 - point.x
  let rightOverflow := point.x + overlay.width - viewport.width
  let topOverflow := 0 - point.y
  let bottomOverflow := point.y + overlay.height - viewport.height
  let visibleWidth := subtractOverflows overlay.width [leftOverflow, rightOverflow]
  let visibleHeight := subtractOverflows overlay.height [topOverflow, bottomOverflow]
  let visibleArea := visibleWidth * visibleHeight
  { visibleArea := visibleArea
    isCompletelyWithinViewport := decide (overlay.width * overlay.height = visibleArea)
    fitsInViewportVertically := decide (visibleHeight = overlay.height)
    fitsInViewportHorizontally := decide (visibleWidth = overlay.width) }

/-- Embeds _canFitWithFlexibleDimensions (lines 1914-1928) verbatim, including
the guard condition written in the source as
this._hasFlexibleWidth || this._hasFlexibleWidth (the same flag twice); when
the guard is false the JS function returns undefined, which the caller treats
as false. -/
def canFitWithFlexibleDimensions (cfg : StrategyConfig) (fit : OverlayFit) (point : Point)
    (viewport : Rect) : Bool :=
  if cfg.hasFlexibleWidth || cfg.hasFlexibleWidth then
    let availableHeight := viewport.bottom - point.y
    let availableWidth := viewport.right - point.x
    let verticalFit := fit.fitsInViewportVertically ||
        (cfg.hasFlexibleHeight && decide (cfg.minHeight ≤ availableHeight))
    let horizontalFit := fit.fitsInViewportHorizontally ||
        (cfg.hasFlexibleWidth && decide (cfg.minWidth ≤ availableWidth))
    verticalFit && horizontalFit
  else
    false

/-- JS numeric shortcut a || b: b when a is 0 (falsy), otherwise a. -/
def jsFalsyOr (a b : ℚ) : ℚ :=
  if a = 0 then b else a

/-- Embeds _pushOverlayOnScreen (lines 1940-1972): translate the overlay point
so it remains on-screen, anchoring the near edge when the overlay is larger
than the viewport on an axis. -/
def pushOverlayOnScreen (viewport : Rect) (start : Point) (overlay : Rect) : Point :=
  let overflowRight := max (start.x + overlay.width - viewport.right) 0
  let overflowBottom := max (start.y + overlay.height - viewport.bottom) 0
  let overflowTop := max (viewport.top - start.y) 0
  let overflowLeft := max (viewport.left - start.x) 0
  let pushX : ℚ :=
    if overlay.width ≤ viewport.width then jsFalsyOr overflowLeft (-overflowRight)
    else viewport.left - start.x
  let pushY : ℚ :=
    if overlay.height ≤ viewport.height then jsFalsyOr overflowTop (-overflowBottom)
    else viewport.top - start.y
  ⟨start.x + pushX, start.y + pushY⟩

/-- Embeds _narrowViewportRect (lines 2200-2210): shrink the viewport rect by
the margin on all four sides. -/
def narrowViewportRect (viewportMargin : ℚ) (rect : Rect) : Rect :=
  { top := rect.top + viewportMargin
    left := rect.left + viewportMargin
    right := rect.right - viewportMargin
    bottom := rect.bottom - viewportMargin
    width := rect.width - 2 * viewportMargin
    height := rect.height - 2 * viewportMargin }

/-- Embeds _calculateBoundingBoxRect (lines 2000-2058): the position and size
of the sizing wrapper for a candidate, with no measuring. The vertical center
branch uses min (viewport.bottom - origin.y) (origin.y - viewport.left) and the
horizontal center branch uses min (viewport.right - origin.x)
(origin.x - viewport.top), exactly as in the source. -/
def calculateBoundingBoxRect (cfg : StrategyConfig) (viewport : Rect) (origin : Point)
    (position : ConnectedPosition) : BoundingBoxRect :=
  let vPart : Option ℚ × Option ℚ × ℚ :=
    match position.overlayY with
    | .vTop => (some origin.y, none, viewport.bottom - origin.y)
    | .vBottom => (none, some (viewport.bottom - origin.y + cfg.viewportMargin),
        origin.y - viewport.top)
    | .vCenter =>
        let smallestDistanceToViewportEdge :=
          min (viewport.bottom - origin.y) (origin.y - viewport.left)
        let height := smallestDistanceToViewportEdge * 2
        let top :=
          if cfg.lastBoundingBoxHeight < height ∧ cfg.isInitialRender = false ∧
              cfg.growAfterOpen = false then
            origin.y - cfg.lastBoundingBoxHeight / 2
          else
            origin.y - smallestDistanceToViewportEdge
        (some top, none, height)
  let isBoundedByRightViewportEdge :=
    (position.overlayX = .hStart ∧ cfg.isRtl = false) ∨
    (position.overlayX = .hEnd ∧ cfg.isRtl = true)
  let isBoundedByLeftViewportEdge :=
    (position.overlayX = .hEnd ∧ cfg.isRtl = false) ∨
    (position.overlayX = .hStart ∧ cfg.isRtl = true)
  let hPart : Option ℚ × Option ℚ × ℚ :=
    if isBoundedByLeftViewportEdge then
      (none, some (viewport.right - origin.x + cfg.viewportMargin), origin.x - viewport.left)
    else if isBoundedByRightViewportEdge then
      (some origin.x, none, viewport.right - origin.x)
    else
      let smallestDistanceToViewportEdge :=
        min (viewport.right - origin.x) (origin.x - viewport.top)
      let width := smallestDistanceToViewportEdge * 2
      let left :=
        if cfg.lastBoundingBoxWidth < width ∧ cfg.isInitialRender = false ∧
            cfg.growAfterOpen = false then
          origin.x - cfg.lastBoundingBoxWidth / 2
        else
          origin.x - smallestDistanceToViewportEdge
      (some left, none, width)
  { top := vPart.1, bottom := vPart.2.1, height := vPart.2.2,
    left := hPart.1, right := hPart.2.1, width := hPart.2.2 }

/-- The JS expression fit.position.weight || 1: an unset weight and a weight of
0 are both falsy and yield 1. -/
def weightOrOne (w : Option ℚ) : ℚ :=
  match w with
  | none => 1
  | some v => if v = 0 then 1 else v

/-- The score computed in apply() for one flexible fit:
boundingBoxRect.width times boundingBoxRect.height times (weight || 1). -/
def flexScore (fit : FlexibleFit) : ℚ :=
  fit.boundingBoxRect.width * fit.boundingBoxRect.height * weightOrOne fit.position.weight

/-- Embeds the best-flexible-fit loop of apply() (lines 1709-1718): scan the
recorded fits, keeping the one whose score strictly exceeds the best score so
far; bestScore starts at -1 and bestFit at null (none). -/
def pickBestFlexibleAux : List FlexibleFit → Option FlexibleFit → ℚ → Option FlexibleFit
  | [], bestFit, _ => bestFit
  | fit :: rest, bestFit, bestScore =>
      if bestScore < flexScore fit then pickBestFlexibleAux rest (some fit) (flexScore fit)
      else pickBestFlexibleAux rest bestFit bestScore

/-- The best flexible fit chosen by apply(): the scan started from null and -1. -/
def pickBestFlexible (fits : List FlexibleFit) : Option FlexibleFit :=
  pickBestFlexibleAux fits none (-1)

/-- Embeds the fallback update of apply() (lines 1701-1703): keep the candidate
with the strictly larger visible area, ties keeping the earlier one. -/
def updateFallback (fallback : Option FallbackPosition) (cand : FallbackPosition) :
    Option FallbackPosition :=
  match fallback with
  | none => some cand
  | some fb =>
      if fb.overlayFit.visibleArea < cand.overlayFit.visibleArea then some cand else some fb

/-- The outcome of one apply() pass: which candidate is applied and through
which path. The flexibleChosen payload is none when bestFit is still null after
the scan (in JS, apply() then dereferences null); noPositionCrash models the
dereference of the undefined fallback when the position list is empty. -/
inductive ApplyOutcome where
  | fitChosen (pos : ConnectedPosition) (originPoint : Point) : ApplyOutcome
  | flexibleChosen (best : Option FlexibleFit) : ApplyOutcome
  | pushChosen (pos : ConnectedPosition) (pushedPoint : Point) : ApplyOutcome
  | fallbackChosen (pos : ConnectedPosition) (originPoint : Point) : ApplyOutcome
  | noPositionCrash : ApplyOutcome
deriving DecidableEq, Repr

/-- The origin connection point of a candidate during apply(). -/
def originPointAt (cfg : StrategyConfig) (originRect : Rect) (pos : ConnectedPosition) : Point :=
  getOriginPoint cfg.isRtl originRect pos

/-- The overlay top-left point of a candidate during apply(). -/
def overlayPointAt (cfg : StrategyConfig) (originRect overlayRect : Rect)
    (pos : ConnectedPosition) : Point :=
  getOverlayPoint cfg.isRtl (originPointAt cfg originRect pos) overlayRect pos

/-- The overlay fit of a candidate during apply(). -/
def overlayFitAt (cfg : StrategyConfig) (originRect overlayRect viewport : Rect)
    (pos : ConnectedPosition) : OverlayFit :=
  getOverlayFit (overlayPointAt cfg originRect overlayRect pos) overlayRect viewport

/-- Whether the fit of a candidate is completely within the viewport during apply(). -/
def isCompleteAt (cfg : StrategyConfig) (originRect overlayRect viewport : Rect)
    (pos : ConnectedPosition) : Bool :=
  (overlayFitAt cfg originRect overlayRect viewport pos).isCompletelyWithinViewport

/-- Whether a candidate is recorded as a flexible fit during apply(). -/
def isFlexAt (cfg : StrategyConfig) (originRect overlayRect viewport : Rect)
    (pos : ConnectedPosition) : Bool :=
  canFitWithFlexibleDimensions cfg (overlayFitAt cfg originRect overlayRect viewport pos)
    (overlayPointAt cfg originRect overlayRect pos) viewport

/-- The FlexibleFit record pushed for a candidate (lines 1688-1693). -/
def mkFlexFit (cfg : StrategyConfig) (originRect overlayRect viewport : Rect)
    (pos : ConnectedPosition) : FlexibleFit :=
  ⟨pos, originPointAt cfg originRect pos, overlayRect,
    calculateBoundingBoxRect cfg viewport (originPointAt cfg originRect pos) pos⟩

/-- The FallbackPosition record for a candidate (line 1702). -/
def mkFallbackCand (cfg : StrategyConfig) (originRect overlayRect viewport : Rect)
    (pos : ConnectedPosition) : FallbackPosition :=
  ⟨pos, originPointAt cfg originRect pos, overlayPointAt cfg originRect overlayRect pos,
    overlayFitAt cfg originRect overlayRect viewport pos, overlayRect⟩

/-- Embeds the tail of apply() after the candidate loop (lines 1706-1739):
prefer the best recorded flexible fit, else push the fallback when pushing is
enabled, else use the fallback as-is. -/
def finishScan (cfg : StrategyConfig) (overlayRect viewport : Rect)
    (flexibleFits : List FlexibleFit) (fallback : Option FallbackPosition) : ApplyOutcome :=
  if flexibleFits.isEmpty then
    match fallback with
    | none => .noPositionCrash
    | some fb =>
        if cfg.canPush then
          .pushChosen fb.pos (pushOverlayOnScreen viewport fb.overlayPoint overlayRect)
        else
          .fallbackChosen fb.pos fb.originPoint
  else
    .flexibleChosen (pickBestFlexible flexibleFits)

/-- Embeds the candidate loop of apply() (lines 1664-1704): scan candidates in
list order, returning at the first complete fit, recording flexible fits, and
tracking the largest-visible-area fallback. -/
def scanPositions (cfg : StrategyConfig) (originRect overlayRect viewport : Rect) :
    List ConnectedPosition → List FlexibleFit → Option FallbackPosition → ApplyOutcome
  | [], flexibleFits, fallback => finishScan cfg overlayRect viewport flexibleFits fallback
  | pos :: rest, flexibleFits, fallback =>
      if isCompleteAt cfg originRect overlayRect viewport pos then
        .fitChosen pos (originPointAt cfg originRect pos)
      else if isFlexAt cfg originRect overlayRect viewport pos then
        scanPositions cfg originRect overlayRect viewport rest
          (flexibleFits ++ [mkFlexFit cfg originRect overlayRect viewport pos]) fallback
      else
        scanPositions cfg originRect overlayRect viewport rest flexibleFits
          (updateFallback fallback (mkFallbackCand cfg originRect overlayRect viewport pos))

/-- The selection performed by one apply() pass (lines 1628-1740), as a pure
function of the configuration, the measured origin and overlay rects, the
already narrowed viewport rect, and the preferred positions. -/
def applySelect (cfg : StrategyConfig) (originRect overlayRect viewport : Rect)
    (positions : List ConnectedPosition) : ApplyOutcome :=
  scanPositions cfg originRect overlayRect viewport positions [] none

/-- The flexible fits recorded by a full scan in which no candidate fits
completely: the candidates passing the flexible test, in list order. -/
def recordedFlexFits (cfg : StrategyConfig) (originRect overlayRect viewport : Rect)
    (positions : List ConnectedPosition) : List FlexibleFit :=
  (positions.filter (fun pos => isFlexAt cfg originRect overlayRect viewport pos)).map
    (mkFlexFit cfg originRect overlayRect viewport)

/-- The fallback tracked by a full scan in which no candidate fits completely. -/
def fallbackAfter (cfg : StrategyConfig) (originRect overlayRect viewport : Rect)
    (fallback : Option FallbackPosition) : List ConnectedPosition → Option FallbackPosition
  | [] => fallback
  | pos :: rest =>
      if isFlexAt cfg originRect overlayRect viewport pos then
        fallbackAfter cfg originRect overlayRect viewport fallback rest
      else
        fallbackAfter cfg originRect overlayRect viewport
          (updateFallback fallback (mkFallbackCand cfg originRect overlayRect viewport pos)) rest

/-- The visible width computed inside _getOverlayFit for a point. -/
def visibleWidthAt (point : Point) (overlay viewport : Rect) : ℚ :=
  subtractOverflows overlay.width [0 - point.x, point.x + overlay.width - viewport.width]

/-- The visible height computed inside _getOverlayFit for a point. -/
def visibleHeightAt (point : Point) (overlay viewport : Rect) : ℚ :=
  subtractOverflows overlay.height [0 - point.y, point.y + overlay.height - viewport.height]

/-- The initial-render flag and last stored bounding box size read and written
by _setBoundingBoxStyles. -/
structure BBSizeState where
  isInitialRender : Bool
  lastBoundingBoxWidth : ℚ
  lastBoundingBoxHeight : ℚ
deriving DecidableEq, Repr

/-- Embeds the size clamping of _setBoundingBoxStyles (lines 2067-2110): after
the first render, with grow-after-open off, the computed size is clamped to the
minimum of itself and the last stored size; the applied size is then stored.
_applyPosition sets _isInitialRender to false after this runs. -/
def setBoundingBoxSize (growAfterOpen : Bool) (s : BBSizeState) (computed : ℚ × ℚ) :
    (ℚ × ℚ) × BBSizeState :=
  let applied :=
    if s.isInitialRender = false ∧ growAfterOpen = false then
      (min computed.1 s.lastBoundingBoxWidth, min computed.2 s.lastBoundingBoxHeight)
    else
      computed
  (applied, ⟨false, applied.1, applied.2⟩)

/-- A sequence of positioning passes: each pass feeds its computed bounding box
(width, height) through _setBoundingBoxStyles; the list of applied sizes. -/
def runPasses (growAfterOpen : Bool) (s : BBSizeState) : List (ℚ × ℚ) → List (ℚ × ℚ)
  | [] => []
  | c :: cs =>
      let step := setBoundingBoxSize growAfterOpen s c
      step.1 :: runPasses growAfterOpen step.2 cs

/-- The failure raised by attach() when the strategy is already attached. -/
inductive AttachError where
  | alreadyAttachedOverlay
deriving DecidableEq, Repr

/-- An attached overlay reference: an identity and its overlayElement (pane). -/
structure OverlayRefModel where
  refId : Nat
  overlayElement : Nat
deriving DecidableEq, Repr

/-- The strategy state read and written by attach(): the _overlayRef and _pane
fields, unset before the first attach. -/
structure StrategyAttachState where
  overlayRef : Option OverlayRefModel
  pane : Option Nat
deriving DecidableEq, Repr

/-- Embeds attach() (lines 1598-1605): throw when _overlayRef is already set,
otherwise store the overlay reference and its pane element. The state is
returned alongside the result so the error case shows it unchanged. -/
def attach (s : StrategyAttachState) (overlayRef : OverlayRefModel) :
    Except AttachError Unit × StrategyAttachState :=
  match s.overlayRef with
  | some _ => (Except.error AttachError.alreadyAttachedOverlay, s)
  | none => (Except.ok (), ⟨some overlayRef, some overlayRef.overlayElement⟩)

/-- Bounding positions of an element with respect to the viewport
(ElementBoundingPositions, first iteration). -/
structure ElementBoundingPositions where
  top : ℚ
  right : ℚ
  bottom : ℚ
  left : ℚ
deriving DecidableEq, Repr

/-- Embeds isElementOutsideView (first iteration, lines 1342-1353): the element
is completely out of the view of some container. -/
def isElementOutsideView (elementBounds : ElementBoundingPositions)
    (containersBounds : List ElementBoundingPositions) : Bool :=
  containersBounds.any fun containerBounds =>
    let outsideAbove := decide (elementBounds.bottom < containerBounds.top)
    let outsideBelow := decide (elementBounds.top > containerBounds.bottom)
    let outsideLeft := decide (elementBounds.right < containerBounds.left)
    let outsideRight := decide (elementBounds.left > containerBounds.right)
    outsideAbove || outsideBelow || outsideLeft || outsideRight

/-- Embeds isElementClipped (first iteration, lines 1356-1367): the element is
clipped by some container. -/
def isElementClipped (elementBounds : ElementBoundingPositions)
    (containersBounds : List ElementBoundingPositions) : Bool :=
  containersBounds.any fun containerBounds =>
    let clippedAbove := decide (elementBounds.top < containerBounds.top)
    let clippedBelow := decide (elementBounds.bottom > containerBounds.bottom)
    let clippedLeft := decide (elementBounds.left < containerBounds.left)
    let clippedRight := decide (elementBounds.right > containerBounds.right)
    clippedAbove || clippedBelow || clippedLeft || clippedRight

/-! ## Theorems -/

/-- Claim C7: attach() on an already-attached strategy raises the error
synchronously and leaves the stored overlay reference (and the whole attach
state) unchanged; attach() on a never-attached strategy succeeds and stores
the overlay reference and its pane element. -/
theorem attach_fails_iff_already_attached (s : StrategyAttachState) (r : OverlayRefModel) :
    (s.overlayRef.isSome = true →
      attach s r = (Except.error AttachError.alreadyAttachedOverlay, s)) ∧
    (s.overlayRef = none →
      attach s r = (Except.ok (), ⟨some r, some r.overlayElement⟩)) := by
  constructor
  · intro h
    cases hs : s.overlayRef with
    | none => rw [hs] at h; simp at h
    | some r0 => simp [attach, hs]
  · intro h
    simp [attach, h]

/-- Claim C7 witness: at concrete states, re-attaching errors with the state
unchanged, and a first attach succeeds and stores the reference and pane. -/
theorem attach_fails_iff_already_attached_witness :
    attach ⟨some ⟨1, 2⟩, some 2⟩ ⟨3, 4⟩ =
      (Except.error AttachError.alreadyAttachedOverlay, ⟨some ⟨1, 2⟩, some 2⟩) ∧
    attach ⟨none, none⟩ ⟨3, 4⟩ = (Except.ok (), ⟨some ⟨3, 4⟩, some 4⟩) :=
  ⟨(attach_fails_iff_already_attached ⟨some ⟨1, 2⟩, some 2⟩ ⟨3, 4⟩).1 rfl,
   (attach_fails_iff_already_attached ⟨none, none⟩ ⟨3, 4⟩).2 rfl⟩

/-- Claim C9: the outside-view predicate is true exactly when some container
has the element fully above, below, left of, or right of it, and the clipped
predicate is true exactly when some container has the element extending beyond
one of its four edges; both reduce per-container results with logical OR
(an existential over the container list). -/
theorem outside_view_and_clipped_iff (e : ElementBoundingPositions)
    (cs : List ElementBoundingPositions) :
    (isElementOutsideView e cs = true ↔
      ∃ c ∈ cs, e.bottom < c.top ∨ e.top > c.bottom ∨ e.right < c.left ∨ e.left > c.right) ∧
    (isElementClipped e cs = true ↔
      ∃ c ∈ cs, e.top < c.top ∨ e.bottom > c.bottom ∨ e.left < c.left ∨ e.right > c.right) := by
  constructor
  · simp [isElementOutsideView, List.any_eq_true, or_assoc]
  · simp [isElementClipped, List.any_eq_true, or_assoc]

/-- Claim C8 (code bug evidence): for the origin rect with left 0, right 10,
width 10, a candidate with originX center yields x = 15 under RTL (the start
edge, i.e. the right edge, plus half the width) but x = 5 under LTR, so the
center x coordinate is not direction-invariant. -/
theorem origin_center_direction_dependent :
    (getOriginPoint true ⟨0, 0, 10, 10, 10, 10⟩
      ⟨.hCenter, .vTop, .hStart, .vTop, none, none, none⟩).x = 15 ∧
    (getOriginPoint false ⟨0, 0, 10, 10, 10, 10⟩
      ⟨.hCenter, .vTop, .hStart, .vTop, none, none, none⟩).x = 5 := by
  constructor <;> norm_num [getOriginPoint, getStartX, getEndX]

/-- Claim C3 (code bug evidence): because the guard of
_canFitWithFlexibleDimensions tests _hasFlexibleWidth twice instead of
_hasFlexibleWidth or _hasFlexibleHeight, whenever flexible width is disabled
the function never accepts any candidate, regardless of the flexible-height
setting, the fit, the point, or the viewport. -/
theorem flexible_height_alone_never_accepted (cfg : StrategyConfig) (fit : OverlayFit)
    (point : Point) (viewport : Rect) (hw : cfg.hasFlexibleWidth = false) :
    canFitWithFlexibleDimensions cfg fit point viewport = false := by
  simp [canFitWithFlexibleDimensions, hw]

/-- Claim C3 witness: a concrete configuration with flexible height enabled and
flexible width disabled, and a candidate that fits horizontally at natural size
(fitsInViewportHorizontally true) whose minimum height 0 fits below the
connection point, which the claim says must be accepted as a flexible fit, is
rejected by the code. -/
theorem flexible_height_alone_never_accepted_witness :
    (⟨false, false, true, true, false, true, 0, 0, 0, 0, 0⟩ :
        StrategyConfig).hasFlexibleHeight = true ∧
    (overlayFitAt ⟨false, false, true, true, false, true, 0, 0, 0, 0, 0⟩
      ⟨10, 10, 20, 20, 10, 10⟩ ⟨0, 0, 50, 200, 50, 200⟩ ⟨0, 0, 100, 100, 100, 100⟩
      ⟨.hStart, .vBottom, .hStart, .vTop, none, none, none⟩).fitsInViewportHorizontally = true ∧
    (⟨false, false, true, true, false, true, 0, 0, 0, 0, 0⟩ : StrategyConfig).minHeight ≤
      (⟨0, 0, 100, 100, 100, 100⟩ : Rect).bottom -
        (overlayPointAt ⟨false, false, true, true, false, true, 0, 0, 0, 0, 0⟩
          ⟨10, 10, 20, 20, 10, 10⟩ ⟨0, 0, 50, 200, 50, 200⟩
          ⟨.hStart, .vBottom, .hStart, .vTop, none, none, none⟩).y ∧
    canFitWithFlexibleDimensions ⟨false, false, true, true, false, true, 0, 0, 0, 0, 0⟩
      (overlayFitAt ⟨false, false, true, true, false, true, 0, 0, 0, 0, 0⟩
        ⟨10, 10, 20, 20, 10, 10⟩ ⟨0, 0, 50, 200, 50, 200⟩ ⟨0, 0, 100, 100, 100, 100⟩
        ⟨.hStart, .vBottom, .hStart, .vTop, none, none, none⟩)
      (overlayPointAt ⟨false, false, true, true, false, true, 0, 0, 0, 0, 0⟩
        ⟨10, 10, 20, 20, 10, 10⟩ ⟨0, 0, 50, 200, 50, 200⟩
        ⟨.hStart, .vBottom, .hStart, .vTop, none, none, none⟩)
      ⟨0, 0, 100, 100, 100, 100⟩ = false :=
  ⟨rfl,
   by norm_num [overlayFitAt, overlayPointAt, originPointAt, getOriginPoint, getOverlayPoint,
     getStartX, getEndX, getOverlayFit, subtractOverflows],
   by norm_num [overlayPointAt, originPointAt, getOriginPoint, getOverlayPoint,
     getStartX, getEndX],
   flexible_height_alone_never_accepted _ _ _ _ rfl⟩

/-- After the first render, with grow-after-open off, every later applied size
is bounded by the incoming stored size and the applied sizes never increase. -/
theorem runPasses_clamped_aux (cs : List (ℚ × ℚ)) :
    ∀ w h : ℚ,
    (∀ a ∈ runPasses false ⟨false, w, h⟩ cs, a.1 ≤ w ∧ a.2 ≤ h) ∧
    List.Chain' (fun a b => b.1 ≤ a.1 ∧ b.2 ≤ a.2)
      ((w, h) :: runPasses false ⟨false, w, h⟩ cs) := by
  induction cs with
  | nil => intro w h; simp [runPasses]
  | cons d ds ih =>
    intro w h
    have hstep : runPasses false ⟨false, w, h⟩ (d :: ds) =
        (min d.1 w, min d.2 h) :: runPasses false ⟨false, min d.1 w, min d.2 h⟩ ds := by
      simp [runPasses, setBoundingBoxSize]
    rw [hstep]
    rcases ih (min d.1 w) (min d.2 h) with ⟨ihMem, ihChain⟩
    constructor
    · intro a ha
      rcases List.mem_cons.mp ha with rfl | ha2
      · exact ⟨min_le_right _ _, min_le_right _ _⟩
      · rcases ihMem a ha2 with ⟨h1, h2⟩
        exact ⟨le_trans h1 (min_le_right _ _), le_trans h2 (min_le_right _ _)⟩
    · exact List.Chain'.cons ⟨min_le_right _ _, min_le_right _ _⟩ ihChain

/-- Claim C6: with grow-after-open false, the first pass applies its computed
size unchanged, every applied size in the sequence is bounded by the size of
the first pass, and the applied sizes are non-increasing (componentwise) across
passes. -/
theorem bounding_box_size_never_grows (c : ℚ × ℚ) (cs : List (ℚ × ℚ)) :
    runPasses false ⟨true, 0, 0⟩ (c :: cs) = c :: runPasses false ⟨false, c.1, c.2⟩ cs ∧
    (∀ a ∈ runPasses false ⟨true, 0, 0⟩ (c :: cs), a.1 ≤ c.1 ∧ a.2 ≤ c.2) ∧
    List.Chain' (fun a b => b.1 ≤ a.1 ∧ b.2 ≤ a.2) (runPasses false ⟨true, 0, 0⟩ (c :: cs)) := by
  have hfirst : runPasses false ⟨true, 0, 0⟩ (c :: cs) =
      c :: runPasses false ⟨false, c.1, c.2⟩ cs := by
    simp [runPasses, setBoundingBoxSize]
  rcases runPasses_clamped_aux cs c.1 c.2 with ⟨hMem, hChain⟩
  refine ⟨hfirst, ?_, ?_⟩
  · intro a ha
    rw [hfirst] at ha
    rcases List.mem_cons.mp ha with rfl | ha2
    · exact ⟨le_refl _, le_refl _⟩
    · exact hMem a ha2
  · rw [hfirst]
    exact hChain

/-- Claim C6 witness: passes computing (5, 5) then (7, 3) apply (5, 5) then
(5, 3); the second applied size is bounded by the first computed size. -/
theorem bounding_box_size_never_grows_witness :
    ((5 : ℚ), (3 : ℚ)).1 ≤ ((5 : ℚ), (5 : ℚ)).1 ∧ ((5 : ℚ), (3 : ℚ)).2 ≤ ((5 : ℚ), (5 : ℚ)).2 :=
  (bounding_box_size_never_grows (5, 5) [(7, 3)]).2.1 (5, 3)
    (by norm_num [runPasses, setBoundingBoxSize, min_def])

/-- The push amount on one axis, as computed by _pushOverlayOnScreen. -/
def pushAmount (nearEdge farEdge axisLen startC overlayLen : ℚ) : ℚ :=
  if overlayLen ≤ axisLen then
    jsFalsyOr (max (nearEdge - startC) 0) (-(max (startC + overlayLen - farEdge) 0))
  else
    nearEdge - startC

/-- The function _pushOverlayOnScreen factors into one pushAmount per axis. -/
theorem pushOverlayOnScreen_eq_pushAmount (viewport : Rect) (start : Point) (overlay : Rect) :
    pushOverlayOnScreen viewport start overlay =
      ⟨start.x + pushAmount viewport.left viewport.right viewport.width start.x overlay.width,
       start.y + pushAmount viewport.top viewport.bottom viewport.height start.y overlay.height⟩ :=
  rfl

/-- One-axis bounds for the push arithmetic: when the overlay fits on the axis
the pushed interval lies inside the viewport interval, and when it is strictly
larger the pushed start is anchored to the near edge. -/
theorem pushAmount_bounds (n f L s w : ℚ) (hL : f - n = L) :
    (w ≤ L → n ≤ s + pushAmount n f L s w ∧ s + pushAmount n f L s w + w ≤ f) ∧
    (L < w → s + pushAmount n f L s w = n) := by
  constructor
  · intro hw
    unfold pushAmount jsFalsyOr
    rw [if_pos hw]
    by_cases h0 : max (n - s) 0 = 0
    · rw [if_pos h0]
      have hns : n - s ≤ 0 := by
        by_contra hc
        push_neg at hc
        rw [max_eq_left hc.le] at h0
        linarith
      rcases max_cases (s + w - f) 0 with ⟨hEq, hge⟩ | ⟨hEq, hlt⟩
      · rw [hEq]
        constructor <;> linarith
      · rw [hEq]
        constructor <;> linarith
    · rw [if_neg h0]
      have hpos : 0 < n - s := by
        rcases max_cases (n - s) 0 with ⟨hEq, hge⟩ | ⟨hEq, hlt⟩
        · rcases lt_or_eq_of_le hge with h | h
          · exact h
          · rw [hEq, ← h] at h0
            exact absurd rfl h0
        · rw [hEq] at h0
          exact absurd rfl h0
      rw [max_eq_left hpos.le]
      constructor <;> linarith
  · intro hL2
    unfold pushAmount
    rw [if_neg (not_le.mpr hL2)]
    ring

/-- Claim C4: for a viewport rect satisfying the Rect invariant, pushing an
overlay that fits within the viewport dimensions on both axes yields zero
overflow past every edge of the viewport rect, and an overlay strictly larger
than the viewport on an axis has that axis anchored to the near viewport edge. -/
theorem push_overlay_on_screen_no_overflow (viewport : Rect) (start : Point) (overlay : Rect)
    (hWidth : viewport.right - viewport.left = viewport.width)
    (hHeight : viewport.bottom - viewport.top = viewport.height)
    (_hOverlayW : overlay.right - overlay.left = overlay.width)
    (_hOverlayH : overlay.bottom - overlay.top = overlay.height) :
    (overlay.width ≤ viewport.width ∧ overlay.height ≤ viewport.height →
      viewport.left ≤ (pushOverlayOnScreen viewport start overlay).x ∧
      (pushOverlayOnScreen viewport start overlay).x + overlay.width ≤ viewport.right ∧
      viewport.top ≤ (pushOverlayOnScreen viewport start overlay).y ∧
      (pushOverlayOnScreen viewport start overlay).y + overlay.height ≤ viewport.bottom) ∧
    (viewport.width < overlay.width →
      (pushOverlayOnScreen viewport start overlay).x = viewport.left) ∧
    (viewport.height < overlay.height →
      (pushOverlayOnScreen viewport start overlay).y = viewport.top) := by
  have hx := pushAmount_bounds viewport.left viewport.right viewport.width start.x
    overlay.width hWidth
  have hy := pushAmount_bounds viewport.top viewport.bottom viewport.height start.y
    overlay.height hHeight
  rw [pushOverlayOnScreen_eq_pushAmount]
  refine ⟨fun hwh => ?_, fun hw => ?_, fun hh => ?_⟩
  · rcases hx.1 hwh.1 with ⟨hx1, hx2⟩
    rcases hy.1 hwh.2 with ⟨hy1, hy2⟩
    exact ⟨hx1, hx2, hy1, hy2⟩
  · exact hx.2 hw
  · exact hy.2 hh

/-- Claim C4 witness: an overlay of width 200 starting at x = 50 in a viewport
with left 0 and width 200 is pushed to x = 0 (the less-or-equal branch applies
when the widths are equal), and the theorem yields zero overflow there. -/
theorem push_overlay_on_screen_no_overflow_witness :
    (pushOverlayOnScreen ⟨0, 0, 200, 300, 200, 300⟩ ⟨50, 50⟩ ⟨0, 0, 200, 30, 200, 30⟩).x = 0 ∧
    (⟨0, 0, 200, 300, 200, 300⟩ : Rect).left ≤
      (pushOverlayOnScreen ⟨0, 0, 200, 300, 200, 300⟩ ⟨50, 50⟩ ⟨0, 0, 200, 30, 200, 30⟩).x ∧
    (pushOverlayOnScreen ⟨0, 0, 200, 300, 200, 300⟩ ⟨50, 50⟩ ⟨0, 0, 200, 30, 200, 30⟩).x +
      (⟨0, 0, 200, 30, 200, 30⟩ : Rect).width ≤ (⟨0, 0, 200, 300, 200, 300⟩ : Rect).right :=
  ⟨by norm_num [pushOverlayOnScreen, jsFalsyOr, max_def],
   ((push_overlay_on_screen_no_overflow ⟨0, 0, 200, 300, 200, 300⟩ ⟨50, 50⟩
       ⟨0, 0, 200, 30, 200, 30⟩ (by norm_num) (by norm_num) (by norm_num) (by norm_num)).1
     (by norm_num)).1,
   (((push_overlay_on_screen_no_overflow ⟨0, 0, 200, 300, 200, 300⟩ ⟨50, 50⟩
       ⟨0, 0, 200, 30, 200, 30⟩ (by norm_num) (by norm_num) (by norm_num) (by norm_num)).1
     (by norm_num)).2).1⟩

/-- The complete-containment flag of _getOverlayFit is the area-equality test. -/
theorem getOverlayFit_complete_iff (p : Point) (overlay viewport : Rect) :
    (getOverlayFit p overlay viewport).isCompletelyWithinViewport = true ↔
      overlay.width * overlay.height =
        visibleWidthAt p overlay viewport * visibleHeightAt p overlay viewport := by
  simp [getOverlayFit, visibleWidthAt, visibleHeightAt]

/-- The vertical-fit flag of _getOverlayFit is the visible-height test. -/
theorem getOverlayFit_vertical_iff (p : Point) (overlay viewport : Rect) :
    (getOverlayFit p overlay viewport).fitsInViewportVertically = true ↔
      visibleHeightAt p overlay viewport = overlay.height := by
  simp [getOverlayFit, visibleHeightAt]

/-- The horizontal-fit flag of _getOverlayFit is the visible-width test. -/
theorem getOverlayFit_horizontal_iff (p : Point) (overlay viewport : Rect) :
    (getOverlayFit p overlay viewport).fitsInViewportHorizontally = true ↔
      visibleWidthAt p overlay viewport = overlay.width := by
  simp [getOverlayFit, visibleWidthAt]

/-- The visible width never exceeds the overlay width. -/
theorem visibleWidthAt_le (p : Point) (overlay viewport : Rect) :
    visibleWidthAt p overlay viewport ≤ overlay.width := by
  simp only [visibleWidthAt, subtractOverflows, List.foldl]
  have h1 := le_max_right (0 - p.x) 0
  have h2 := le_max_right (p.x + overlay.width - viewport.width) 0
  linarith

/-- The visible height never exceeds the overlay height. -/
theorem visibleHeightAt_le (p : Point) (overlay viewport : Rect) :
    visibleHeightAt p overlay viewport ≤ overlay.height := by
  simp only [visibleHeightAt, subtractOverflows, List.foldl]
  have h1 := le_max_right (0 - p.y) 0
  have h2 := le_max_right (p.y + overlay.height - viewport.height) 0
  linarith

/-- The visible width equals the overlay width exactly when the overlay span
lies inside the interval from 0 to viewport.width. -/
theorem visibleWidthAt_eq_iff (p : Point) (overlay viewport : Rect) :
    visibleWidthAt p overlay viewport = overlay.width ↔
      0 ≤ p.x ∧ p.x + overlay.width ≤ viewport.width := by
  simp only [visibleWidthAt, subtractOverflows, List.foldl]
  constructor
  · intro h
    have h1 := le_max_right (0 - p.x) 0
    have h2 := le_max_right (p.x + overlay.width - viewport.width) 0
    have hm1 : max (0 - p.x) 0 = 0 := by linarith
    have hm2 : max (p.x + overlay.width - viewport.width) 0 = 0 := by linarith
    have hx1 := le_max_left (0 - p.x) 0
    have hx2 := le_max_left (p.x + overlay.width - viewport.width) 0
    rw [hm1] at hx1
    rw [hm2] at hx2
    constructor <;> linarith
  · intro ⟨h1, h2⟩
    rw [max_eq_right (by linarith : 0 - p.x ≤ 0),
      max_eq_right (by linarith : p.x + overlay.width - viewport.width ≤ 0)]
    ring

/-- The visible height equals the overlay height exactly when the overlay span
lies inside the interval from 0 to viewport.height. -/
theorem visibleHeightAt_eq_iff (p : Point) (overlay viewport : Rect) :
    visibleHeightAt p overlay viewport = overlay.height ↔
      0 ≤ p.y ∧ p.y + overlay.height ≤ viewport.height := by
  simp only [visibleHeightAt, subtractOverflows, List.foldl]
  constructor
  · intro h
    have h1 := le_max_right (0 - p.y) 0
    have h2 := le_max_right (p.y + overlay.height - viewport.height) 0
    have hm1 : max (0 - p.y) 0 = 0 := by linarith
    have hm2 : max (p.y + overlay.height - viewport.height) 0 = 0 := by linarith
    have hx1 := le_max_left (0 - p.y) 0
    have hx2 := le_max_left (p.y + overlay.height - viewport.height) 0
    rw [hm1] at hx1
    rw [hm2] at hx2
    constructor <;> linarith
  · intro ⟨h1, h2⟩
    rw [max_eq_right (by linarith : 0 - p.y ≤ 0),
      max_eq_right (by linarith : p.y + overlay.height - viewport.height ≤ 0)]
    ring

/-- With positive overlay dimensions and nonnegative visible dimensions, the
area-equality test forces both visible dimensions to be full. -/
theorem complete_implies_full_visible (p : Point) (overlay viewport : Rect)
    (hw : 0 < overlay.width) (hh : 0 < overlay.height)
    (hvw : 0 ≤ visibleWidthAt p overlay viewport)
    (hvh : 0 ≤ visibleHeightAt p overlay viewport)
    (hc : overlay.width * overlay.height =
      visibleWidthAt p overlay viewport * visibleHeightAt p overlay viewport) :
    visibleWidthAt p overlay viewport = overlay.width ∧
      visibleHeightAt p overlay viewport = overlay.height := by
  have h1 := visibleWidthAt_le p overlay viewport
  have h2 := visibleHeightAt_le p overlay viewport
  set vw := visibleWidthAt p overlay viewport with hvwdef
  set vh := visibleHeightAt p overlay viewport with hvhdef
  have key : overlay.height * (overlay.width - vw) + vw * (overlay.height - vh) = 0 := by
    nlinarith [hc]
  have t1 : 0 ≤ overlay.height * (overlay.width - vw) := by
    apply mul_nonneg hh.le
    linarith
  have t2 : 0 ≤ vw * (overlay.height - vh) := by
    apply mul_nonneg hvw
    linarith
  have hz1 : overlay.height * (overlay.width - vw) = 0 := by linarith
  have hweq : vw = overlay.width := by
    rcases mul_eq_zero.mp hz1 with h | h
    · linarith
    · linarith
  refine ⟨hweq, ?_⟩
  rw [hweq] at hc
  have : overlay.width * (overlay.height - vh) = 0 := by linarith [hc]
  rcases mul_eq_zero.mp this with h | h
  · linarith
  · linarith

/-- Claim C10 counterexample: overlay 2 by 2 (strictly positive dimensions)
at point (-4, -4) in a 100 by 100 viewport: both visible dimensions are -2, so
the visible area equals the full area and isCompletelyWithinViewport is true,
yet the overlay fits on neither axis. -/
theorem complete_fit_negative_visibility_counterexample :
    0 < (⟨0, 0, 2, 2, 2, 2⟩ : Rect).width ∧ 0 < (⟨0, 0, 2, 2, 2, 2⟩ : Rect).height ∧
    (getOverlayFit ⟨-4, -4⟩ ⟨0, 0, 2, 2, 2, 2⟩
      ⟨0, 0, 100, 100, 100, 100⟩).isCompletelyWithinViewport = true ∧
    (getOverlayFit ⟨-4, -4⟩ ⟨0, 0, 2, 2, 2, 2⟩
      ⟨0, 0, 100, 100, 100, 100⟩).fitsInViewportVertically = false ∧
    (getOverlayFit ⟨-4, -4⟩ ⟨0, 0, 2, 2, 2, 2⟩
      ⟨0, 0, 100, 100, 100, 100⟩).fitsInViewportHorizontally = false := by
  norm_num [getOverlayFit, subtractOverflows, max_def]

/-- Claim C10 (amended): with strictly positive overlay dimensions and
nonnegative computed visible dimensions, a fit reported completely within the
viewport also fits on each individual axis. -/
theorem complete_fit_implies_axis_fits (p : Point) (overlay viewport : Rect)
    (hw : 0 < overlay.width) (hh : 0 < overlay.height)
    (hvw : 0 ≤ visibleWidthAt p overlay viewport)
    (hvh : 0 ≤ visibleHeightAt p overlay viewport)
    (hc : (getOverlayFit p overlay viewport).isCompletelyWithinViewport = true) :
    (getOverlayFit p overlay viewport).fitsInViewportVertically = true ∧
    (getOverlayFit p overlay viewport).fitsInViewportHorizontally = true := by
  rw [getOverlayFit_complete_iff] at hc
  rcases complete_implies_full_visible p overlay viewport hw hh hvw hvh hc with ⟨h1, h2⟩
  rw [getOverlayFit_vertical_iff, getOverlayFit_horizontal_iff]
  exact ⟨h2, h1⟩

/-- Claim C10 witness: overlay 2 by 2 at (10, 10) in a 100 by 100 viewport has
positive dimensions, nonnegative visible dimensions, and a complete fit, hence
fits on both axes. -/
theorem complete_fit_implies_axis_fits_witness :
    (getOverlayFit ⟨10, 10⟩ ⟨0, 0, 2, 2, 2, 2⟩
      ⟨0, 0, 100, 100, 100, 100⟩).fitsInViewportVertically = true ∧
    (getOverlayFit ⟨10, 10⟩ ⟨0, 0, 2, 2, 2, 2⟩
      ⟨0, 0, 100, 100, 100, 100⟩).fitsInViewportHorizontally = true :=
  complete_fit_implies_axis_fits ⟨10, 10⟩ ⟨0, 0, 2, 2, 2, 2⟩ ⟨0, 0, 100, 100, 100, 100⟩
    (by norm_num) (by norm_num)
    (by norm_num [visibleWidthAt, subtractOverflows, max_def])
    (by norm_num [visibleHeightAt, subtractOverflows, max_def])
    (by norm_num [getOverlayFit, subtractOverflows, max_def])

/-- Claim C5 counterexample: with margin 10 on a viewport rect from (0, 0) to
(100, 100), the narrowed rect has left = top = 10, yet a 10 by 10 overlay at
(0, 0) is reported completely within the viewport: the fit test does not
compare against the left/top/right/bottom fields of the narrowed rect. -/
theorem narrowed_fit_ignores_edges_counterexample :
    (getOverlayFit ⟨0, 0⟩ ⟨0, 0, 10, 10, 10, 10⟩
      (narrowViewportRect 10 ⟨0, 0, 100, 100, 100, 100⟩)).isCompletelyWithinViewport = true ∧
    ¬ ((narrowViewportRect 10 ⟨0, 0, 100, 100, 100, 100⟩).left ≤ (0 : ℚ)) := by
  norm_num [getOverlayFit, subtractOverflows, narrowViewportRect, max_def]

/-- Claim C5 (amended): the complete-containment test used by apply() judges
the overlay against a rect anchored at (0, 0) whose dimensions are the margin
narrowed width and height: with positive overlay dimensions and nonnegative
visible dimensions, a candidate at (x, y) is reported completely within the
viewport exactly when 0 <= x, x + width <= raw.width - 2m, 0 <= y and
y + height <= raw.height - 2m; the left/top/right/bottom fields of the narrowed rect
offsets are ignored. -/
theorem narrowed_fit_test_zero_anchored (m : ℚ) (raw : Rect) (p : Point) (overlay : Rect)
    (_hm : 0 ≤ m) (hw : 0 < overlay.width) (hh : 0 < overlay.height)
    (hvw : 0 ≤ visibleWidthAt p overlay (narrowViewportRect m raw))
    (hvh : 0 ≤ visibleHeightAt p overlay (narrowViewportRect m raw)) :
    (getOverlayFit p overlay (narrowViewportRect m raw)).isCompletelyWithinViewport = true ↔
      (0 ≤ p.x ∧ p.x + overlay.width ≤ raw.width - 2 * m ∧
       0 ≤ p.y ∧ p.y + overlay.height ≤ raw.height - 2 * m) := by
  have hWidth : (narrowViewportRect m raw).width = raw.width - 2 * m := rfl
  have hHeight : (narrowViewportRect m raw).height = raw.height - 2 * m := rfl
  rw [getOverlayFit_complete_iff]
  constructor
  · intro hc
    rcases complete_implies_full_visible p overlay (narrowViewportRect m raw)
        hw hh hvw hvh hc with ⟨h1, h2⟩
    rcases (visibleWidthAt_eq_iff p overlay (narrowViewportRect m raw)).mp h1 with ⟨ha, hb⟩
    rcases (visibleHeightAt_eq_iff p overlay (narrowViewportRect m raw)).mp h2 with ⟨hcy, hd⟩
    rw [hWidth] at hb
    rw [hHeight] at hd
    exact ⟨ha, hb, hcy, hd⟩
  · intro ⟨h1, h2, h3, h4⟩
    have hvweq : visibleWidthAt p overlay (narrowViewportRect m raw) = overlay.width := by
      rw [visibleWidthAt_eq_iff, hWidth]
      exact ⟨h1, h2⟩
    have hvheq : visibleHeightAt p overlay (narrowViewportRect m raw) = overlay.height := by
      rw [visibleHeightAt_eq_iff, hHeight]
      exact ⟨h3, h4⟩
    rw [hvweq, hvheq]

/-- Claim C5 witness: margin 10 on the viewport rect from (0, 0) to (100, 100)
and a 10 by 10 overlay at (20, 20): the inequalities against the zero-anchored
narrowed dimensions hold, so the fit is reported completely within. -/
theorem narrowed_fit_test_zero_anchored_witness :
    (getOverlayFit ⟨20, 20⟩ ⟨0, 0, 10, 10, 10, 10⟩
      (narrowViewportRect 10 ⟨0, 0, 100, 100, 100, 100⟩)).isCompletelyWithinViewport = true :=
  (narrowed_fit_test_zero_anchored 10 ⟨0, 0, 100, 100, 100, 100⟩ ⟨20, 20⟩
    ⟨0, 0, 10, 10, 10, 10⟩ (by norm_num) (by norm_num) (by norm_num)
    (by norm_num [visibleWidthAt, subtractOverflows, narrowViewportRect, max_def])
    (by norm_num [visibleHeightAt, subtractOverflows, narrowViewportRect, max_def])).mpr
    (by norm_num)

/-- The candidate loop returns at the first completely fitting candidate, for
any accumulated flexible fits and fallback. -/
theorem scanPositions_first_complete (cfg : StrategyConfig) (o ov vp : Rect)
    (p : ConnectedPosition) (l2 : List ConnectedPosition)
    (hp : isCompleteAt cfg o ov vp p = true) :
    ∀ (l1 : List ConnectedPosition) (acc : List FlexibleFit) (fb : Option FallbackPosition),
    (∀ q ∈ l1, isCompleteAt cfg o ov vp q = false) →
    scanPositions cfg o ov vp (l1 ++ p :: l2) acc fb =
      .fitChosen p (originPointAt cfg o p) := by
  intro l1
  induction l1 with
  | nil =>
    intro acc fb _
    simp [scanPositions, hp]
  | cons q l1t ih =>
    intro acc fb hq
    have hqf : isCompleteAt cfg o ov vp q = false := hq q (List.mem_cons_self q l1t)
    have hrest : ∀ r ∈ l1t, isCompleteAt cfg o ov vp r = false :=
      fun r hr => hq r (List.mem_cons_of_mem q hr)
    rcases Bool.eq_false_or_eq_true (isFlexAt cfg o ov vp q) with hf | hf
    · simp only [List.cons_append, scanPositions, hqf, hf]
      simp only [Bool.false_eq_true, if_false]
      exact ih _ _ hrest
    · simp only [List.cons_append, scanPositions, hqf, hf]
      simp only [Bool.false_eq_true, if_false, if_true]
      exact ih _ _ hrest

/-- Claim C1: when the candidates before p all fail the complete-containment
test and p passes it, apply() selects p through the first-fit path with the
origin connection point of p, and the outcome is entirely independent of the
candidates after p. -/
theorem apply_selects_first_complete_fit (cfg : StrategyConfig) (o ov vp : Rect)
    (l1 l2 : List ConnectedPosition) (p : ConnectedPosition)
    (h1 : ∀ q ∈ l1, isCompleteAt cfg o ov vp q = false)
    (h2 : isCompleteAt cfg o ov vp p = true) :
    applySelect cfg o ov vp (l1 ++ p :: l2) = .fitChosen p (originPointAt cfg o p) ∧
    ∀ l2b : List ConnectedPosition,
      applySelect cfg o ov vp (l1 ++ p :: l2b) = applySelect cfg o ov vp (l1 ++ p :: l2) := by
  have haux := scanPositions_first_complete cfg o ov vp p l2 h2 l1 [] none h1
  refine ⟨haux, fun l2b => ?_⟩
  have haux2 := scanPositions_first_complete cfg o ov vp p l2b h2 l1 [] none h1
  simp only [applySelect]
  rw [haux, haux2]

/-- Claim C1 witness: the concrete scenario of the spec (origin at top 100, left 50,
size 40 by 20; overlay 200 by 30; viewport 400 by 300; the single candidate
connecting origin start/bottom to overlay start/top) fits completely and is
selected through the first-fit path with origin point (50, 120). -/
theorem apply_selects_first_complete_fit_witness :
    isCompleteAt ⟨false, true, true, true, false, true, 0, 0, 0, 0, 0⟩
      ⟨100, 50, 90, 120, 40, 20⟩ ⟨0, 0, 200, 30, 200, 30⟩ ⟨0, 0, 400, 300, 400, 300⟩
      ⟨.hStart, .vBottom, .hStart, .vTop, none, none, none⟩ = true ∧
    applySelect ⟨false, true, true, true, false, true, 0, 0, 0, 0, 0⟩
      ⟨100, 50, 90, 120, 40, 20⟩ ⟨0, 0, 200, 30, 200, 30⟩ ⟨0, 0, 400, 300, 400, 300⟩
      ([] ++ ⟨.hStart, .vBottom, .hStart, .vTop, none, none, none⟩ :: []) =
      .fitChosen ⟨.hStart, .vBottom, .hStart, .vTop, none, none, none⟩
        (originPointAt ⟨false, true, true, true, false, true, 0, 0, 0, 0, 0⟩
          ⟨100, 50, 90, 120, 40, 20⟩
          ⟨.hStart, .vBottom, .hStart, .vTop, none, none, none⟩) := by
  have hc : isCompleteAt ⟨false, true, true, true, false, true, 0, 0, 0, 0, 0⟩
      ⟨100, 50, 90, 120, 40, 20⟩ ⟨0, 0, 200, 30, 200, 30⟩ ⟨0, 0, 400, 300, 400, 300⟩
      ⟨.hStart, .vBottom, .hStart, .vTop, none, none, none⟩ = true := by
    norm_num [isCompleteAt, overlayFitAt, overlayPointAt, originPointAt, getOriginPoint,
      getOverlayPoint, getStartX, getEndX, getOverlayFit, subtractOverflows, max_def]
  exact ⟨hc,
    (apply_selects_first_complete_fit ⟨false, true, true, true, false, true, 0, 0, 0, 0, 0⟩
      ⟨100, 50, 90, 120, 40, 20⟩ ⟨0, 0, 200, 30, 200, 30⟩ ⟨0, 0, 400, 300, 400, 300⟩
      [] [] ⟨.hStart, .vBottom, .hStart, .vTop, none, none, none⟩
      (by simp) hc).1⟩

/-- Reference first-maximum scan: starting from a current best g, replace it
exactly when a later element has strictly larger score. -/
def specPickAux : List FlexibleFit → FlexibleFit → FlexibleFit
  | [], g => g
  | f :: rest, g =>
      if flexScore g < flexScore f then specPickAux rest f else specPickAux rest g

/-- Once a best element is held, the scan of the code agrees with the reference
scan (the held best score always equals the score of the held element). -/
theorem pickBestFlexibleAux_some (fits : List FlexibleFit) :
    ∀ g : FlexibleFit,
    pickBestFlexibleAux fits (some g) (flexScore g) = some (specPickAux fits g) := by
  induction fits with
  | nil => intro g; rfl
  | cons f rest ih =>
    intro g
    simp only [pickBestFlexibleAux, specPickAux]
    by_cases h : flexScore g < flexScore f
    · rw [if_pos h, if_pos h, ih f]
    · rw [if_neg h, if_neg h, ih g]

/-- The reference scan ignores a dominated starting element: two starts both
strictly below some later element give the same result. -/
theorem specPickAux_dominated (fits : List FlexibleFit) :
    ∀ a b : FlexibleFit, flexScore b ≤ flexScore a →
    (∃ f ∈ fits, flexScore a < flexScore f) →
    specPickAux fits a = specPickAux fits b := by
  induction fits with
  | nil =>
    intro a b _ hex
    rcases hex with ⟨f, hf, _⟩
    simp at hf
  | cons c cc ih =>
    intro a b hba hex
    simp only [specPickAux]
    by_cases hac : flexScore a < flexScore c
    · rw [if_pos hac, if_pos (lt_of_le_of_lt hba hac)]
    · rw [if_neg hac]
      push_neg at hac
      have hex2 : ∃ f ∈ cc, flexScore a < flexScore f := by
        rcases hex with ⟨f, hf, hlt⟩
        rcases List.mem_cons.mp hf with rfl | hf2
        · exact absurd hlt (not_lt.mpr hac)
        · exact ⟨f, hf2, hlt⟩
      by_cases hbc : flexScore b < flexScore c
      · rw [if_pos hbc]
        exact ih a c hac hex2
      · rw [if_neg hbc]
        exact ih a b hba hex2

/-- When some recorded fit scores above the initial best score -1, the scan of the
code from null agrees with the reference scan started at the first element. -/
theorem pickBestFlexible_eq_spec (rest : List FlexibleFit) :
    ∀ f : FlexibleFit, (∃ x ∈ f :: rest, -1 < flexScore x) →
    pickBestFlexible (f :: rest) = some (specPickAux rest f) := by
  induction rest with
  | nil =>
    intro f hex
    have hf : -1 < flexScore f := by
      rcases hex with ⟨x, hx, hlt⟩
      rcases List.mem_cons.mp hx with rfl | hx2
      · exact hlt
      · simp at hx2
    simp only [pickBestFlexible, pickBestFlexibleAux, specPickAux]
    rw [if_pos hf]
  | cons r rr ih =>
    intro f hex
    by_cases hf : -1 < flexScore f
    · simp only [pickBestFlexible, pickBestFlexibleAux]
      rw [if_pos hf]
      exact pickBestFlexibleAux_some (r :: rr) f
    · push_neg at hf
      have hex2 : ∃ x ∈ r :: rr, -1 < flexScore x := by
        rcases hex with ⟨x, hx, hlt⟩
        rcases List.mem_cons.mp hx with rfl | hx2
        · linarith
        · exact ⟨x, hx2, hlt⟩
      have hskip : pickBestFlexible (f :: r :: rr) = pickBestFlexible (r :: rr) := by
        simp only [pickBestFlexible, pickBestFlexibleAux]
        rw [if_neg (not_lt.mpr hf)]
      rw [hskip, ih r hex2]
      congr 1
      simp only [specPickAux]
      by_cases hfr : flexScore f < flexScore r
      · rw [if_pos hfr]
      · rw [if_neg hfr]
        push_neg at hfr
        rcases hex2 with ⟨x, hx, hlt⟩
        rcases List.mem_cons.mp hx with rfl | hx2
        · linarith
        · rw [specPickAux_dominated rr f r hfr ⟨x, hx2, by linarith⟩]

/-- The reference scan returns the first element of maximal score: everything
before it in the scanned list scores strictly below it, everything after it
scores at most it. -/
theorem specPickAux_first_max (fits : List FlexibleFit) :
    ∀ g : FlexibleFit,
    ∃ la lb, g :: fits = la ++ specPickAux fits g :: lb ∧
      (∀ x ∈ la, flexScore x < flexScore (specPickAux fits g)) ∧
      (∀ x ∈ lb, flexScore x ≤ flexScore (specPickAux fits g)) := by
  induction fits with
  | nil =>
    intro g
    exact ⟨[], [], rfl, by simp, by simp⟩
  | cons f rest ih =>
    intro g
    simp only [specPickAux]
    by_cases hgf : flexScore g < flexScore f
    · rw [if_pos hgf]
      rcases ih f with ⟨la, lb, hdec, hla, hlb⟩
      have hfle : flexScore f ≤ flexScore (specPickAux rest f) := by
        cases la with
        | nil =>
          have hfg : f = specPickAux rest f := by
            have h := hdec
            simp only [List.nil_append] at h
            exact ((List.cons.injEq _ _ _ _).mp h).1
          conv_lhs => rw [hfg]
        | cons a la2 =>
          have hhead : f = a := by
            have h := hdec
            simp only [List.cons_append] at h
            exact ((List.cons.injEq _ _ _ _).mp h).1
          have h2 := hla a (List.mem_cons_self a la2)
          rw [← hhead] at h2
          exact h2.le
      refine ⟨g :: la, lb, ?_, ?_, hlb⟩
      · simp only [List.cons_append]
        rw [← hdec]
      · intro x hx
        rcases List.mem_cons.mp hx with rfl | hx2
        · linarith
        · exact hla x hx2
    · rw [if_neg hgf]
      push_neg at hgf
      rcases ih g with ⟨la, lb, hdec, hla, hlb⟩
      cases la with
      | nil =>
        have hgeq : g = specPickAux rest g ∧ rest = lb := by
          have h := hdec
          simp only [List.nil_append] at h
          exact (List.cons.injEq _ _ _ _).mp h
        refine ⟨[], f :: rest, ?_, by simp, ?_⟩
        · simp only [List.nil_append]
          rw [← hgeq.1]
        · intro x hx
          rcases List.mem_cons.mp hx with rfl | hx2
          · rw [← hgeq.1]
            exact hgf
          · rw [← hgeq.1]
            have hx3 : x ∈ lb := by
              rw [← hgeq.2]
              exact hx2
            have h4 := hlb x hx3
            rw [← hgeq.1] at h4
            exact h4
      | cons a la2 =>
        have hsplit : g = a ∧ rest = la2 ++ specPickAux rest g :: lb := by
          have h := hdec
          simp only [List.cons_append] at h
          exact (List.cons.injEq _ _ _ _).mp h
        have hga : flexScore g < flexScore (specPickAux rest g) := by
          have h2 := hla a (List.mem_cons_self a la2)
          rw [← hsplit.1] at h2
          exact h2
        refine ⟨g :: f :: la2, lb, ?_, ?_, hlb⟩
        · simp only [List.cons_append]
          conv_lhs => rw [hsplit.2]
        · intro x hx
          rcases List.mem_cons.mp hx with rfl | hx2
          · exact hga
          rcases List.mem_cons.mp hx2 with rfl | hx3
          · linarith
          · exact hla x (List.mem_cons_of_mem a hx3)

/-- A scan over candidates that all fail the complete-containment test ends in
finishScan with the recorded flexible fits appended to the accumulator and the
fallback folded over the non-flexible candidates. -/
theorem scanPositions_no_complete (cfg : StrategyConfig) (o ov vp : Rect) :
    ∀ (l : List ConnectedPosition) (acc : List FlexibleFit) (fb : Option FallbackPosition),
    (∀ p ∈ l, isCompleteAt cfg o ov vp p = false) →
    scanPositions cfg o ov vp l acc fb =
      finishScan cfg ov vp (acc ++ recordedFlexFits cfg o ov vp l)
        (fallbackAfter cfg o ov vp fb l) := by
  intro l
  induction l with
  | nil =>
    intro acc fb _
    simp [scanPositions, recordedFlexFits, fallbackAfter]
  | cons p rest ih =>
    intro acc fb h
    have hp : isCompleteAt cfg o ov vp p = false := h p (List.mem_cons_self p rest)
    have hrest : ∀ q ∈ rest, isCompleteAt cfg o ov vp q = false :=
      fun q hq => h q (List.mem_cons_of_mem p hq)
    rcases Bool.eq_false_or_eq_true (isFlexAt cfg o ov vp p) with hf | hf
    · simp only [scanPositions, hp, hf, Bool.false_eq_true, if_false, if_true]
      rw [ih (acc ++ [mkFlexFit cfg o ov vp p]) fb hrest]
      simp [recordedFlexFits, fallbackAfter, hf, List.filter_cons, List.append_assoc]
    · simp only [scanPositions, hp, hf, Bool.false_eq_true, if_false]
      rw [ih acc (updateFallback fb (mkFallbackCand cfg o ov vp p)) hrest]
      simp [recordedFlexFits, fallbackAfter, hf, List.filter_cons]

/-- Claim C2 counterexample: a single candidate (origin start/bottom to overlay
center/top) in a narrowed viewport from (0, 100) to (50, 200): the candidate
does not fit completely, it is recorded as a flexible fit, but its bounding box
width is computed as -180 (the horizontal center branch of
_calculateBoundingBoxRect measures the distance to viewport.top), so its score
-9000 never exceeds the initial best score -1 and apply() selects no flexible
fit at all (bestFit stays null) instead of the recorded maximal one. -/
theorem apply_flexible_selects_nothing_counterexample :
    applySelect ⟨false, true, true, true, false, true, 0, 0, 0, 0, 0⟩
      ⟨140, 10, 20, 150, 10, 10⟩ ⟨0, 0, 4, 4, 4, 4⟩ ⟨100, 0, 50, 200, 50, 100⟩
      [⟨.hStart, .vBottom, .hCenter, .vTop, none, none, none⟩] = .flexibleChosen none ∧
    recordedFlexFits ⟨false, true, true, true, false, true, 0, 0, 0, 0, 0⟩
      ⟨140, 10, 20, 150, 10, 10⟩ ⟨0, 0, 4, 4, 4, 4⟩ ⟨100, 0, 50, 200, 50, 100⟩
      [⟨.hStart, .vBottom, .hCenter, .vTop, none, none, none⟩] ≠ [] := by
  constructor
  · simp [applySelect, scanPositions, finishScan, isCompleteAt, isFlexAt, overlayFitAt,
      overlayPointAt, originPointAt, getOriginPoint, getOverlayPoint, getStartX, getEndX,
      getOverlayFit, subtractOverflows, canFitWithFlexibleDimensions, mkFlexFit,
      calculateBoundingBoxRect, pickBestFlexible, pickBestFlexibleAux, flexScore,
      weightOrOne, max_def, min_def] <;> norm_num
  · simp [recordedFlexFits, isFlexAt, overlayFitAt, overlayPointAt, originPointAt,
      getOriginPoint, getOverlayPoint, getStartX, getEndX, getOverlayFit, subtractOverflows,
      canFitWithFlexibleDimensions, max_def, List.filter_cons] <;> norm_num

/-- Claim C2 (amended): when no candidate fits completely, at least one
flexible fit is recorded, and some recorded fit scores above -1 (the initial
best score of the loop), apply() takes the flexible path, never push or fallback,
and selects the recorded fit of maximal score
boundingBoxRect.width * boundingBoxRect.height * (weight or 1, with unset and
zero weights both treated as 1), ties keeping the first such fit in list
order; when every recorded score is at most -1 the selection dereferences
null instead (see the counterexample). -/
theorem apply_flexible_selects_weighted_max (cfg : StrategyConfig) (o ov vp : Rect)
    (l : List ConnectedPosition)
    (hnc : ∀ p ∈ l, isCompleteAt cfg o ov vp p = false)
    (hex : ∃ f ∈ recordedFlexFits cfg o ov vp l, -1 < flexScore f) :
    ∃ g la lb,
      applySelect cfg o ov vp l = .flexibleChosen (some g) ∧
      recordedFlexFits cfg o ov vp l = la ++ g :: lb ∧
      (∀ x ∈ la, flexScore x < flexScore g) ∧
      (∀ x ∈ lb, flexScore x ≤ flexScore g) := by
  have hscan := scanPositions_no_complete cfg o ov vp l [] none hnc
  rcases hrec : recordedFlexFits cfg o ov vp l with _ | ⟨f, rest⟩
  · rw [hrec] at hex
    simp at hex
  · rw [hrec] at hex hscan
    have hpick := pickBestFlexible_eq_spec rest f hex
    rcases specPickAux_first_max rest f with ⟨la, lb, hdec, hla, hlb⟩
    refine ⟨specPickAux rest f, la, lb, ?_, hdec, hla, hlb⟩
    simp only [applySelect]
    rw [hscan]
    simp only [List.nil_append, finishScan, List.isEmpty_cons, Bool.false_eq_true, if_false]
    rw [hpick]

/-- Claim C2 witness: a 50 by 200 overlay below a small origin in a 100 by 100
viewport with one start/bottom to start/top candidate: the candidate does not
fit completely, is recorded as a flexible fit with bounding box 90 by 80 and
score 7200, and apply() selects it through the flexible path. -/
theorem apply_flexible_selects_weighted_max_witness :
    ∃ g la lb,
      applySelect ⟨false, true, true, true, false, true, 0, 0, 0, 0, 0⟩
        ⟨10, 10, 20, 20, 10, 10⟩ ⟨0, 0, 50, 200, 50, 200⟩ ⟨0, 0, 100, 100, 100, 100⟩
        [⟨.hStart, .vBottom, .hStart, .vTop, none, none, none⟩] =
        .flexibleChosen (some g) ∧
      recordedFlexFits ⟨false, true, true, true, false, true, 0, 0, 0, 0, 0⟩
        ⟨10, 10, 20, 20, 10, 10⟩ ⟨0, 0, 50, 200, 50, 200⟩ ⟨0, 0, 100, 100, 100, 100⟩
        [⟨.hStart, .vBottom, .hStart, .vTop, none, none, none⟩] = la ++ g :: lb ∧
      (∀ x ∈ la, flexScore x < flexScore g) ∧
      (∀ x ∈ lb, flexScore x ≤ flexScore g) :=
  apply_flexible_selects_weighted_max ⟨false, true, true, true, false, true, 0, 0, 0, 0, 0⟩
    ⟨10, 10, 20, 20, 10, 10⟩ ⟨0, 0, 50, 200, 50, 200⟩ ⟨0, 0, 100, 100, 100, 100⟩
    [⟨.hStart, .vBottom, .hStart, .vTop, none, none, none⟩]
    (by norm_num [isCompleteAt, overlayFitAt, overlayPointAt, originPointAt, getOriginPoint,
      getOverlayPoint, getStartX, getEndX, getOverlayFit, subtractOverflows, max_def])
    ⟨mkFlexFit ⟨false, true, true, true, false, true, 0, 0, 0, 0, 0⟩
        ⟨10, 10, 20, 20, 10, 10⟩ ⟨0, 0, 50, 200, 50, 200⟩ ⟨0, 0, 100, 100, 100, 100⟩
        ⟨.hStart, .vBottom, .hStart, .vTop, none, none, none⟩,
      by
        have hflex : isFlexAt ⟨false, true, true, true, false, true, 0, 0, 0, 0, 0⟩
            ⟨10, 10, 20, 20, 10, 10⟩ ⟨0, 0, 50, 200, 50, 200⟩ ⟨0, 0, 100, 100, 100, 100⟩
            ⟨.hStart, .vBottom, .hStart, .vTop, none, none, none⟩ = true := by
          simp [isFlexAt, overlayFitAt, overlayPointAt, originPointAt, getOriginPoint,
            getOverlayPoint, getStartX, getEndX, getOverlayFit, subtractOverflows,
            canFitWithFlexibleDimensions, max_def] <;> norm_num
        simp [recordedFlexFits, List.filter_cons, hflex],
      by
        simp [flexScore, mkFlexFit, calculateBoundingBoxRect, originPointAt,
          getOriginPoint, getStartX, getEndX, weightOrOne, min_def] <;> norm_num⟩

end Material2
